import Mathlib

/-!
Verification development for the service-monitor application (`src/app.js`).

The relevant parts of the program are embedded shallowly:

* The credential vault (`encrypt` / `decrypt`, src/app.js lines 95-115) works
  over byte lists.  Node's `aes-256-cbc` is modelled as CBC mode with PKCS#7
  padding over an abstract 16-byte block permutation (`encBlock` / `decBlock`);
  the hex codec models `Buffer.from(s, 'hex')` / `buf.toString('hex')`,
  including Node's truncation at the first non-hex character.  Fallible steps
  (`createDecipheriv` rejecting a wrong-length IV, `decipher.final` rejecting a
  wrong-length or badly padded ciphertext) are returned as `Except.error`,
  modelling a thrown exception.
* The checker (`checkService`, lines 723-770) takes the probe's outcome -
  an HTTP response or a transport failure - as an explicit argument.
* The per-result update step of `checkAllServices` (lines 791-823), history
  persistence (`saveServiceHistory`, lines 327-338), the delete route
  (lines 931-955) and the status listing route (lines 848-872) are embedded
  with the mutable maps passed as explicit state.
* The notification dispatcher (`sendNotifications` and the four channel
  senders, lines 357-720) is embedded in the `Except` monad: an uncaught
  channel exception would abort the remaining channels, exactly as a thrown
  rejection would in the JavaScript `await` chain; each sender's own
  `try/catch` converts the failure into a caught outcome.
-/

namespace ServiceMonitor

/-- Byte strings (each element intended `< 256`). -/
abbrev Bytes := List Nat

/-! ## Hex codec (Node `Buffer` hex encoding / decoding) -/

/-- Lower-case hex digit of a nibble, as a character code (`0`-`9`, `a`-`f`). -/
def hexDigit (n : Nat) : Nat :=
  if n < 10 then 48 + n else 87 + n

/-- `buf.toString('hex')`: two lower-case hex characters per byte. -/
def hexEncode : Bytes → Bytes
  | [] => []
  | b :: bs => hexDigit (b / 16) :: hexDigit (b % 16) :: hexEncode bs

/-- Value of a hex character code (`0-9`, `a-f`, `A-F`), if any. -/
def hexVal (c : Nat) : Option Nat :=
  if 48 ≤ c ∧ c ≤ 57 then some (c - 48)
  else if 97 ≤ c ∧ c ≤ 102 then some (c - 87)
  else if 65 ≤ c ∧ c ≤ 70 then some (c - 55)
  else none

/-- `Buffer.from(s, 'hex')`: consumes hex-digit pairs, stopping at the first
incomplete or invalid pair (Node truncates rather than throwing). -/
def hexDecode : Bytes → Bytes
  | c1 :: c2 :: rest =>
    match hexVal c1, hexVal c2 with
    | some h, some l => (16 * h + l) :: hexDecode rest
    | _, _ => []
  | _ => []

/-! ## CBC mode with PKCS#7 padding over an abstract block permutation -/

/-- Byte-wise xor (CBC chaining). -/
def xorBytes (a b : Bytes) : Bytes := List.zipWith (· ^^^ ·) a b

/-- Split a byte string into consecutive 16-byte blocks. -/
def toBlocks (l : Bytes) : List Bytes :=
  if h : l = [] then []
  else l.take 16 :: toBlocks (l.drop 16)
termination_by l.length
decreasing_by
  simp only [List.length_drop]
  have : 0 < l.length := List.length_pos.mpr h
  omega

/-- PKCS#7 padding to a 16-byte block boundary (always adds 1-16 bytes). -/
def pad16 (l : Bytes) : Bytes :=
  l ++ List.replicate (16 - l.length % 16) (16 - l.length % 16)

/-- PKCS#7 unpadding with validation; a bad pad is a thrown `bad decrypt`. -/
def unpad16 (l : Bytes) : Except String Bytes :=
  match l.getLast? with
  | none => .error "bad decrypt"
  | some k =>
    if k = 0 ∨ 16 < k then .error "bad decrypt"
    else if l.drop (l.length - k) = List.replicate k k then .ok (l.take (l.length - k))
    else .error "bad decrypt"

/-- CBC encryption of a padded block sequence, chaining from `prev`. -/
def cbcEncryptBlocks (encBlock : Bytes → Bytes) (prev : Bytes) : List Bytes → List Bytes
  | [] => []
  | b :: bs =>
    encBlock (xorBytes b prev) :: cbcEncryptBlocks encBlock (encBlock (xorBytes b prev)) bs

/-- CBC decryption of a ciphertext block sequence, chaining from `prev`. -/
def cbcDecryptBlocks (decBlock : Bytes → Bytes) (prev : Bytes) : List Bytes → List Bytes
  | [] => []
  | c :: cs => xorBytes (decBlock c) prev :: cbcDecryptBlocks decBlock c cs

/-- `decipher.update` + `decipher.final` for `aes-256-cbc`: rejects a
ciphertext that is empty or not a whole number of blocks, CBC-decrypts,
then validates and strips the PKCS#7 padding. -/
def cbcDecrypt (decBlock : Bytes → Bytes) (iv ct : Bytes) : Except String Bytes :=
  if ct.length = 0 ∨ ct.length % 16 ≠ 0 then .error "wrong final block length"
  else unpad16 (cbcDecryptBlocks decBlock iv (toBlocks ct)).flatten

/-- The delimiter `':'` separating IV hex from ciphertext hex. -/
def COLON : Nat := 58

/-- src/app.js lines 95-103 (`encrypt`): empty (falsy) text is returned
unchanged; otherwise a fresh 16-byte IV (passed explicitly here, modelling
`crypto.randomBytes(IV_LENGTH)`) is used for CBC encryption and the result is
`ivHex ++ ":" ++ cipherHex`. -/
def encrypt (encBlock : Bytes → Bytes) (iv text : Bytes) : Bytes :=
  if text = [] then text
  else hexEncode iv ++ COLON :: hexEncode (cbcEncryptBlocks encBlock iv (toBlocks (pad16 text))).flatten

/-- src/app.js lines 105-115 (`decrypt`): empty or delimiter-free text is
returned unchanged; otherwise the text is split on `':'`, the first segment
(`parts.shift()`) is hex-decoded as the IV, the rest (`parts.join(':')`) is
the ciphertext hex.  `crypto.createDecipheriv` throws when the IV is not 16
bytes, and `decipher.final` throws on a malformed ciphertext; both appear as
`Except.error`. -/
def decrypt (decBlock : Bytes → Bytes) (text : Bytes) : Except String Bytes :=
  if text = [] ∨ ¬ COLON ∈ text then .ok text
  else
    match text.splitOn COLON with
    | [] => .error "unreachable"
    | ivHex :: rest =>
      let iv := hexDecode ivHex
      if iv.length ≠ 16 then .error "Invalid initialization vector"
      else cbcDecrypt decBlock iv (hexDecode (List.intercalate [COLON] rest))

/-! ## Checker (src/app.js lines 723-770, `checkService`) -/

/-- A monitored endpoint, as stored in `services.json`.  `timeout` and
`expectedStatus` may be absent from the JSON (lines 729 and 736 default them
with `||`). -/
structure ServiceSpec where
  name : String
  url : String
  timeout : Option Nat
  expectedStatus : Option Nat
deriving DecidableEq

/-- What the single `axios.get` probe produced: an HTTP response with a status
code, or a transport failure carrying a message and possibly a response. -/
inductive ProbeOutcome where
  | response (status : Nat)
  | failure (message : String) (responseStatus : Option Nat)
deriving DecidableEq

/-- The result object built by `checkService` (lines 740-748 and 757-765). -/
structure CheckResult where
  name : String
  url : String
  status : String
  statusCode : Option Nat
  responseTime : Nat
  lastChecked : Int
  error : Option String
deriving DecidableEq

/-- JavaScript `v || d` on an optional number: both `undefined` and `0` are
falsy, so they yield the default. -/
def jsOrNat (v : Option Nat) (d : Nat) : Nat :=
  match v with
  | none => d
  | some n => if n = 0 then d else n

/-- JavaScript `v || null` on an optional number (line 761,
`error.response?.status || null`). -/
def jsOrNull (v : Option Nat) : Option Nat :=
  match v with
  | none => none
  | some n => if n = 0 then none else some n

/-- `service.expectedStatus || 200` (line 736). -/
def expectedCode (service : ServiceSpec) : Nat :=
  jsOrNat service.expectedStatus 200

/-- `checkService` with the probe's outcome, elapsed time and wall clock made
explicit.  Both the response branch (lines 740-751) and the catch branch
(lines 752-768) return a result; nothing escapes to the caller. -/
def checkService (service : ServiceSpec) (outcome : ProbeOutcome)
    (responseTime : Nat) (now : Int) : CheckResult :=
  match outcome with
  | .response s =>
    { name := service.name
      url := service.url
      status := if s = expectedCode service then "up" else "down"
      statusCode := some s
      responseTime := responseTime
      lastChecked := now
      error := if s = expectedCode service then none
               else some ("Expected status " ++ toString (expectedCode service)
                          ++ ", got " ++ toString s) }
  | .failure msg responseStatus =>
    { name := service.name
      url := service.url
      status := "down"
      statusCode := jsOrNull responseStatus
      responseTime := responseTime
      lastChecked := now
      error := some msg }

/-! ## History persistence (src/app.js lines 313-354) -/

/-- One element of a per-service history file (pushed at lines 802-808). -/
structure HistoryEntry where
  timestamp : Int
  status : String
  statusCode : Option Nat
  responseTime : Nat
  error : Option String
deriving DecidableEq

/-- `moment().subtract(90, 'days')` as a millisecond offset. -/
def NINETY_DAYS_MS : Int := 90 * 86400000

/-- The filter of `saveServiceHistory` (lines 329-332):
`moment(entry.timestamp).isAfter(ninetyDaysAgo)` is a strict comparison. -/
def trimHistory (now : Int) (history : List HistoryEntry) : List HistoryEntry :=
  history.filter (fun entry => now - NINETY_DAYS_MS < entry.timestamp)

/-- `saveServiceHistory` (lines 327-338): trims to the trailing 90-day window
at save time `now`, overwrites the service's durable file with the trimmed
sequence, and returns it.  The history directory is the explicit map
`files`. -/
def saveServiceHistory (now : Int) (serviceName : String)
    (history : List HistoryEntry) (files : String → Option (List HistoryEntry)) :
    List HistoryEntry × (String → Option (List HistoryEntry)) :=
  let trimmedHistory := trimHistory now history
  (trimmedHistory, fun n => if n = serviceName then some trimmedHistory else files n)

/-- `calculateUptime` (lines 349-354). -/
def calculateUptime (history : List HistoryEntry) : ℚ :=
  if history.length = 0 then 100
  else ((history.filter (fun entry => entry.status = "up")).length : ℚ)
       / (history.length : ℚ) * 100

/-- JavaScript `Number.prototype.toFixed(2)` for exact nonnegative values
(the values reached here are exact in binary floating point): round half up
to two decimals and print.  Computed as `(q.num * 200 + q.den) / (2 * q.den)`,
which is `floor(q * 100 + 1/2)` for the nonnegative reduced fraction `q`. -/
def toFixed2 (q : ℚ) : String :=
  let n : Int := (q.num * 200 + (q.den : Int)) / (2 * (q.den : Int))
  let r : Nat := (n % 100).toNat
  toString (n / 100) ++ "." ++ (if r < 10 then "0" else "") ++ toString r

/-! ## Status store and the cycle's update loop (src/app.js lines 791-823) -/

/-- The mutable maps: `serviceStatuses`, `serviceHistories` (lines 26-27) and
the durable per-service history files under `config/history/`. -/
structure MonState where
  serviceStatuses : String → Option CheckResult
  serviceHistories : String → Option (List HistoryEntry)
  historyFiles : String → Option (List HistoryEntry)

/-- The history entry pushed for a result (lines 802-808). -/
def toHistoryEntry (result : CheckResult) : HistoryEntry :=
  { timestamp := result.lastChecked
    status := result.status
    statusCode := result.statusCode
    responseTime := result.responseTime
    error := result.error }

/-- `previousEntry ? previousEntry.status : 'unknown'` (lines 792-793). -/
def previousStatusOf (st : MonState) (name : String) : String :=
  match st.serviceStatuses name with
  | some entry => entry.status
  | none => "unknown"

/-- The body of the update loop of `checkAllServices` for one result
(lines 791-823): read the previous status, recreate the in-memory history if
missing (lines 798-800), push the new entry, save (and trim) the durable
file, overwrite the status record, and report whether `sendNotifications`
was invoked (line 817: iff `previousStatus !== result.status`). -/
def checkAllServicesStep (now : Int) (st : MonState) (result : CheckResult) :
    MonState × Bool :=
  let previousStatus := previousStatusOf st result.name
  let hist := (st.serviceHistories result.name).getD []
  let hist1 := hist ++ [toHistoryEntry result]
  let saved := saveServiceHistory now result.name hist1 st.historyFiles
  ({ serviceStatuses := fun n => if n = result.name then some result else st.serviceStatuses n
     serviceHistories := fun n => if n = result.name then some saved.1 else st.serviceHistories n
     historyFiles := saved.2 },
   decide (previousStatus ≠ result.status))

/-- `DELETE /api/services/:name` (lines 931-955): `none` is the 404 branch;
otherwise the service is removed from the list, its in-memory status and
history entries are deleted, and its history file is unlinked. -/
def deleteServiceRoute (serviceName : String) (services : List ServiceSpec)
    (st : MonState) : Option (List ServiceSpec × MonState) :=
  let updatedServices := services.filter (fun s => s.name ≠ serviceName)
  if services.length = updatedServices.length then none
  else some (updatedServices,
    { serviceStatuses := fun n => if n = serviceName then none else st.serviceStatuses n
      serviceHistories := fun n => if n = serviceName then none else st.serviceHistories n
      historyFiles := fun n => if n = serviceName then none else st.historyFiles n })

/-! ## Notification configuration and the vault's callers
(src/app.js lines 136-192) -/

/-- The notification configuration, flattened: `emailPass` is
`email.smtp.auth.pass`, `smsAccountSid` / `smsAuthToken` are `sms.accountSid` /
`sms.authToken`; these three secret fields hold bytes (ciphertext on disk,
plaintext in memory). -/
structure NotificationsConfig where
  emailEnabled : Bool
  emailPass : Bytes
  teamsEnabled : Bool
  teamsWebhookUrl : String
  smsEnabled : Bool
  smsAccountSid : Bytes
  smsAuthToken : Bytes
  iphoneEnabled : Bool
  iphoneWebhookUrl : String
deriving DecidableEq

/-- The default configuration returned by the catch branch of
`loadNotifications` (lines 156-191): every channel disabled, all fields
empty. -/
def defaultNotifications : NotificationsConfig :=
  { emailEnabled := false, emailPass := []
    teamsEnabled := false, teamsWebhookUrl := ""
    smsEnabled := false, smsAccountSid := [], smsAuthToken := []
    iphoneEnabled := false, iphoneWebhookUrl := "" }

/-- `loadNotifications` (lines 136-192): `stored = none` models a missing
`notifications.json`.  The three secret fields are decrypted when truthy;
every exception inside the `try` - including one thrown by `decrypt` - lands
in the catch branch, which returns the default configuration. -/
def loadNotifications (decBlock : Bytes → Bytes)
    (stored : Option NotificationsConfig) : NotificationsConfig :=
  match stored with
  | none => defaultNotifications
  | some n =>
    match Except.bind
      (if n.emailPass ≠ [] then decrypt decBlock n.emailPass else .ok n.emailPass)
      (fun pass => Except.bind
        (if n.smsAccountSid ≠ [] then decrypt decBlock n.smsAccountSid else .ok n.smsAccountSid)
        (fun sid => Except.bind
          (if n.smsAuthToken ≠ [] then decrypt decBlock n.smsAuthToken else .ok n.smsAuthToken)
          (fun tok =>
            .ok { n with emailPass := pass, smsAccountSid := sid, smsAuthToken := tok }))) with
    | .ok n1 => n1
    | .error _ => defaultNotifications

/-! ## Notification dispatcher (src/app.js lines 357-720) -/

/-- What happened to one channel during a dispatch. -/
inductive SendOutcome where
  | notAttempted
  | sent
  | failedCaught
deriving DecidableEq

/-- The four channels, in the fixed dispatch order of `sendNotifications`. -/
inductive Channel where
  | email
  | teams
  | sms
  | iphone
deriving DecidableEq

/-- The dispatcher's environment: the two module-level clients
(`transporter`, `twilioClient`) and the outcome each external transport call
would have (success, or a rejection that the channel's `try/catch` must
absorb). -/
structure DispatchEnv where
  transporter : Bool
  twilioClient : Bool
  emailSendOk : Bool
  teamsSendOk : Bool
  smsSendOk : Bool
  iphoneSendOk : Bool
deriving DecidableEq

/-- `transporter.sendMail(mailOptions)` (line 522): may reject. -/
def transporterSendMail (env : DispatchEnv) : Except String Unit :=
  if env.emailSendOk then .ok () else .error "email send rejected"

/-- `axios.post(notifications.teams.webhookUrl, ...)` (line 551): may reject. -/
def axiosPostTeams (env : DispatchEnv) : Except String Unit :=
  if env.teamsSendOk then .ok () else .error "teams post rejected"

/-- `twilioClient.messages.create(...)` (line 609): may reject. -/
def twilioMessagesCreate (env : DispatchEnv) : Except String Unit :=
  if env.smsSendOk then .ok () else .error "sms create rejected"

/-- `axios.post(notifications.iphone.webhookUrl, ...)` (line 642): may
reject. -/
def axiosPostIphone (env : DispatchEnv) : Except String Unit :=
  if env.iphoneSendOk then .ok () else .error "iphone post rejected"

/-- `sendEmailNotification` (lines 357-538): returns early when `transporter`
was never initialized; otherwise the send is inside `try/catch`
(lines 374-537), so a rejection becomes a logged, caught failure. -/
def sendEmailNotification (env : DispatchEnv) : Except String SendOutcome :=
  if env.transporter = false then .ok .notAttempted
  else
    match transporterSendMail env with
    | .ok _ => .ok .sent
    | .error _ => .ok .failedCaught

/-- `sendTeamsNotification` (lines 541-597): skips when disabled or the
webhook URL is falsy; the post is inside `try/catch` (lines 547-596). -/
def sendTeamsNotification (cfg : NotificationsConfig) (env : DispatchEnv) :
    Except String SendOutcome :=
  if cfg.teamsEnabled = false ∨ cfg.teamsWebhookUrl = "" then .ok .notAttempted
  else
    match axiosPostTeams env with
    | .ok _ => .ok .sent
    | .error _ => .ok .failedCaught

/-- `sendSmsNotification` (lines 600-619): returns early when `twilioClient`
was never initialized; the create is inside `try/catch` (lines 606-618). -/
def sendSmsNotification (env : DispatchEnv) : Except String SendOutcome :=
  if env.twilioClient = false then .ok .notAttempted
  else
    match twilioMessagesCreate env with
    | .ok _ => .ok .sent
    | .error _ => .ok .failedCaught

/-- `sendIphoneNotification` (lines 622-654): skips when disabled or the
webhook URL is falsy; the post is inside `try/catch` (lines 628-653). -/
def sendIphoneNotification (cfg : NotificationsConfig) (env : DispatchEnv) :
    Except String SendOutcome :=
  if cfg.iphoneEnabled = false ∨ cfg.iphoneWebhookUrl = "" then .ok .notAttempted
  else
    match axiosPostIphone env with
    | .ok _ => .ok .sent
    | .error _ => .ok .failedCaught

/-- `sendNotifications` (lines 657-720): returns immediately when the status
did not change (lines 682-685); otherwise awaits each enabled channel in the
fixed order email, teams, sms, iphone.  The `Except` monad mirrors the
JavaScript `await` chain: an uncaught exception in one send would abort the
remaining channels and propagate to the caller. -/
def sendNotifications (cfg : NotificationsConfig) (env : DispatchEnv)
    (serviceStatus previousStatus : String) :
    Except String (List (Channel × SendOutcome)) :=
  if previousStatus = serviceStatus then .ok []
  else
    Except.bind (if cfg.emailEnabled then sendEmailNotification env else .ok .notAttempted)
      fun e =>
    Except.bind (if cfg.teamsEnabled then sendTeamsNotification cfg env else .ok .notAttempted)
      fun t =>
    Except.bind (if cfg.smsEnabled then sendSmsNotification env else .ok .notAttempted)
      fun s =>
    Except.bind (if cfg.iphoneEnabled then sendIphoneNotification cfg env else .ok .notAttempted)
      fun i =>
    .ok [(.email, e), (.teams, t), (.sms, s), (.iphone, i)]

/-! ## Scheduler (src/app.js lines 830-836) -/

/-- Events of the scheduler: a 30-second timer tick - whose handler is
`checkAllServices` itself, installed by `setInterval(checkAllServices, 30000)`
at line 835 with no cycle-in-progress guard anywhere in the file - and the
completion of a running cycle. -/
inductive SchedEvent where
  | tick
  | cycleEnd
deriving DecidableEq

/-- Effect of one event on the number of concurrently running cycles: a tick
starts `checkAllServices` unconditionally; a completion ends one cycle. -/
def runningCyclesStep (running : Nat) : SchedEvent → Nat
  | .tick => running + 1
  | .cycleEnd => running - 1

/-- Number of concurrently running cycles after a sequence of events,
starting from an idle scheduler. -/
def runningCycles (events : List SchedEvent) : Nat :=
  events.foldl runningCyclesStep 0

/-! ## Status listing route (src/app.js lines 848-872) -/

/-- One element of the `GET /api/services` response: either a stored
`CheckResult` or the synthetic record of lines 851-859, plus the `uptime`
string (line 867). -/
structure StatusView where
  name : String
  url : String
  status : String
  statusCode : Option Nat
  responseTime : Option Nat
  lastChecked : Option Int
  error : Option String
  uptime : String
deriving DecidableEq

/-- `GET /api/services` (lines 848-872): one record per stored service, the
synthetic `unknown` record when the service has no status yet, with uptime
computed from the in-memory history (`[]` when absent). -/
def apiGetServices (services : List ServiceSpec)
    (statuses : String → Option CheckResult)
    (histories : String → Option (List HistoryEntry)) : List StatusView :=
  services.map fun service =>
    let history := (histories service.name).getD []
    let uptime := toFixed2 (calculateUptime history)
    match statuses service.name with
    | some r =>
      { name := r.name, url := r.url, status := r.status, statusCode := r.statusCode
        responseTime := some r.responseTime, lastChecked := some r.lastChecked
        error := r.error, uptime := uptime }
    | none =>
      { name := service.name, url := service.url, status := "unknown", statusCode := none
        responseTime := none, lastChecked := none, error := none, uptime := uptime }

/-! ## Concrete instances used by witnesses and counterexamples -/

/-- A service spec with both optional fields absent (defaults apply). -/
def demoSpec : ServiceSpec :=
  { name := "A", url := "http://a.example", timeout := none, expectedStatus := none }

/-- Per-channel outcome of one dispatch, read off the guards of the four
channel senders; `sendNotifications` is proved to produce exactly these. -/
def channelOutcome (cfg : NotificationsConfig) (env : DispatchEnv) : Channel → SendOutcome
  | .email =>
    if cfg.emailEnabled = false ∨ env.transporter = false then .notAttempted
    else if env.emailSendOk then .sent else .failedCaught
  | .teams =>
    if cfg.teamsEnabled = false ∨ cfg.teamsWebhookUrl = "" then .notAttempted
    else if env.teamsSendOk then .sent else .failedCaught
  | .sms =>
    if cfg.smsEnabled = false ∨ env.twilioClient = false then .notAttempted
    else if env.smsSendOk then .sent else .failedCaught
  | .iphone =>
    if cfg.iphoneEnabled = false ∨ cfg.iphoneWebhookUrl = "" then .notAttempted
    else if env.iphoneSendOk then .sent else .failedCaught

/-- The service removed mid-cycle in the C4 scenario. -/
def specB : ServiceSpec :=
  { name := "B", url := "http://b.example", timeout := none, expectedStatus := none }

/-- State before the removal: service B has a status record, an in-memory
history and a durable history file. -/
def stB : MonState :=
  { serviceStatuses := fun n => if n = "B" then some (checkService specB (.response 200) 5 0) else none
    serviceHistories := fun n => if n = "B" then some [toHistoryEntry (checkService specB (.response 200) 5 0)] else none
    historyFiles := fun n => if n = "B" then some [toHistoryEntry (checkService specB (.response 200) 5 0)] else none }

/-- State after `DELETE /api/services/B` completes. -/
def stB1 : MonState :=
  match deleteServiceRoute "B" [specB] stB with
  | some (_, st) => st
  | none => stB

/-- The in-flight check result for B, computed by a cycle that started before
the removal. -/
def resB : CheckResult := checkService specB (.response 200) 5 100

/-- The byte string `"zz:zz"`: it contains the delimiter but its IV segment
`"zz"` is not valid hex (Node decodes it to 0 bytes, not 16). -/
def malformedSecret : Bytes := [122, 122, 58, 122, 122]

/-- A stored notification configuration whose email password field holds the
malformed secret. -/
def cfgMalformed : NotificationsConfig :=
  { emailEnabled := true, emailPass := malformedSecret
    teamsEnabled := false, teamsWebhookUrl := ""
    smsEnabled := false, smsAccountSid := [], smsAuthToken := []
    iphoneEnabled := false, iphoneWebhookUrl := "" }

/-- An all-zero 16-byte IV, standing in for one draw of
`crypto.randomBytes(16)`. -/
def zeroIV : Bytes := List.replicate 16 0

/-- A configuration with every channel enabled and configured. -/
def demoCfg : NotificationsConfig :=
  { emailEnabled := true, emailPass := [112]
    teamsEnabled := true, teamsWebhookUrl := "http://teams.example"
    smsEnabled := true, smsAccountSid := [97], smsAuthToken := [98]
    iphoneEnabled := true, iphoneWebhookUrl := "http://iphone.example" }

/-- An environment where every client is initialized and every transport call
would succeed. -/
def demoEnv : DispatchEnv :=
  { transporter := true, twilioClient := true
    emailSendOk := true, teamsSendOk := true, smsSendOk := true, iphoneSendOk := true }

/-! ## Theorems -/

/-- C1: for every ServiceSpec whose probe receives an HTTP response, the check
result has status `up` iff the response status code equals the spec's expected
status code (default 200), with `error` absent when up; on a mismatch the
result is `down` with error text exactly
`"Expected status <expected>, got <actual>"`. -/
theorem checkService_response_spec (service : ServiceSpec) (s : Nat)
    (responseTime : Nat) (now : Int) :
    ((checkService service (.response s) responseTime now).status = "up"
      ↔ s = expectedCode service)
    ∧ ((checkService service (.response s) responseTime now).error = none
      ↔ s = expectedCode service)
    ∧ (s ≠ expectedCode service →
        (checkService service (.response s) responseTime now).status = "down"
        ∧ (checkService service (.response s) responseTime now).error
          = some ("Expected status " ++ toString (expectedCode service)
                  ++ ", got " ++ toString s)) := by
  by_cases h : s = expectedCode service <;> simp [checkService, h]

/-- C1 witness: the theorem evaluated at a concrete spec and a 200 response. -/
theorem checkService_response_spec_witness :
    ((checkService demoSpec (.response 200) 5 0).status = "up"
      ↔ 200 = expectedCode demoSpec)
    ∧ ((checkService demoSpec (.response 200) 5 0).error = none
      ↔ 200 = expectedCode demoSpec)
    ∧ (200 ≠ expectedCode demoSpec →
        (checkService demoSpec (.response 200) 5 0).status = "down"
        ∧ (checkService demoSpec (.response 200) 5 0).error
          = some ("Expected status " ++ toString (expectedCode demoSpec)
                  ++ ", got " ++ toString 200)) :=
  checkService_response_spec demoSpec 200 5 0

/-- C7: a probe that fails in transport still yields a CheckResult (the
function is total, modelling the catch branch that returns rather than
rethrows), with status `down`, `error` the failure's message, and `statusCode`
exactly the response code the failure carries, absent when it carries none. -/
theorem checkService_failure_spec (service : ServiceSpec) (msg : String)
    (responseStatus : Option Nat) (responseTime : Nat) (now : Int)
    (hrs : ∀ c, responseStatus = some c → 0 < c) :
    (checkService service (.failure msg responseStatus) responseTime now).status = "down"
    ∧ (checkService service (.failure msg responseStatus) responseTime now).error = some msg
    ∧ (checkService service (.failure msg responseStatus) responseTime now).statusCode
      = responseStatus := by
  refine ⟨rfl, rfl, ?_⟩
  cases responseStatus with
  | none => rfl
  | some c =>
    have hc : c ≠ 0 := Nat.pos_iff_ne_zero.mp (hrs c rfl)
    simp [checkService, jsOrNull, hc]

/-- C7 witness: a timeout (no response carried) yields `down` with
`statusCode` absent. -/
theorem checkService_failure_spec_witness :
    (∀ c, (none : Option Nat) = some c → 0 < c)
    ∧ ((checkService demoSpec (.failure "timeout of 5000ms exceeded" none) 5000 0).status = "down"
      ∧ (checkService demoSpec (.failure "timeout of 5000ms exceeded" none) 5000 0).error
        = some "timeout of 5000ms exceeded"
      ∧ (checkService demoSpec (.failure "timeout of 5000ms exceeded" none) 5000 0).statusCode
        = none) :=
  ⟨fun c h => absurd h (by simp),
   checkService_failure_spec demoSpec "timeout of 5000ms exceeded" none 5000 0
     (fun c h => absurd h (by simp))⟩

/-- C8: a save writes to the service's durable storage exactly the entries of
the in-memory sequence whose timestamp lies strictly within the 90 days
preceding the save instant, replacing the prior contents entirely; hence no
entry older than 90 days survives a save. -/
theorem saveServiceHistory_window (now : Int) (serviceName : String)
    (history : List HistoryEntry) (files : String → Option (List HistoryEntry)) :
    (saveServiceHistory now serviceName history files).2 serviceName
      = some (history.filter (fun entry => now - NINETY_DAYS_MS < entry.timestamp))
    ∧ (saveServiceHistory now serviceName history files).1
      = history.filter (fun entry => now - NINETY_DAYS_MS < entry.timestamp)
    ∧ ∀ entry ∈ (saveServiceHistory now serviceName history files).1,
        now - NINETY_DAYS_MS < entry.timestamp := by
  refine ⟨by simp [saveServiceHistory, trimHistory], rfl, ?_⟩
  intro entry he
  have h2 := (List.mem_filter.mp he).2
  simpa using h2

/-- C8 witness: a two-entry history saved at `now = NINETY_DAYS_MS + 100`
keeps only the fresh entry. -/
theorem saveServiceHistory_window_witness :
    (saveServiceHistory (NINETY_DAYS_MS + 100) "A"
        [⟨50, "up", some 200, 5, none⟩, ⟨200, "up", some 200, 5, none⟩]
        (fun _ => none)).2 "A"
      = some ([⟨50, "up", some 200, 5, none⟩, ⟨200, "up", some 200, 5, none⟩].filter
          (fun entry => NINETY_DAYS_MS + 100 - NINETY_DAYS_MS < entry.timestamp))
    ∧ (saveServiceHistory (NINETY_DAYS_MS + 100) "A"
        [⟨50, "up", some 200, 5, none⟩, ⟨200, "up", some 200, 5, none⟩]
        (fun _ => none)).1
      = [⟨50, "up", some 200, 5, none⟩, ⟨200, "up", some 200, 5, none⟩].filter
          (fun entry => NINETY_DAYS_MS + 100 - NINETY_DAYS_MS < entry.timestamp)
    ∧ ∀ entry ∈ (saveServiceHistory (NINETY_DAYS_MS + 100) "A"
        [⟨50, "up", some 200, 5, none⟩, ⟨200, "up", some 200, 5, none⟩]
        (fun _ => none)).1,
        NINETY_DAYS_MS + 100 - NINETY_DAYS_MS < entry.timestamp :=
  saveServiceHistory_window (NINETY_DAYS_MS + 100) "A"
    [⟨50, "up", some 200, 5, none⟩, ⟨200, "up", some 200, 5, none⟩] (fun _ => none)

/-- C2: in the cycle's update loop, the alert dispatch is invoked iff the
previous status (the prior record's status, or `unknown` when none exists)
differs from the new result's status; a first-ever check (no prior record)
always fires; and the dispatcher is a no-op when the statuses are equal. -/
theorem checkAllServicesStep_alert_iff (now : Int) (st : MonState)
    (result : CheckResult) (cfg : NotificationsConfig) (env : DispatchEnv)
    (hstatus : result.status = "up" ∨ result.status = "down") :
    ((checkAllServicesStep now st result).2 = true
      ↔ previousStatusOf st result.name ≠ result.status)
    ∧ (st.serviceStatuses result.name = none → (checkAllServicesStep now st result).2 = true)
    ∧ sendNotifications cfg env result.status result.status = .ok [] := by
  refine ⟨by simp [checkAllServicesStep], ?_, ?_⟩
  · intro hnone
    have hprev : previousStatusOf st result.name = "unknown" := by
      simp [previousStatusOf, hnone]
    rcases hstatus with h | h <;> simp [checkAllServicesStep, hprev, h]
  · simp [sendNotifications, pure, Except.pure]

/-- C2 witness: a first-ever check with an `up` result fires, and the no-op
case holds for the concrete dispatcher inputs. -/
theorem checkAllServicesStep_alert_iff_witness :
    ((checkService demoSpec (.response 200) 5 0).status = "up"
      ∨ (checkService demoSpec (.response 200) 5 0).status = "down")
    ∧ (((checkAllServicesStep 0 ⟨fun _ => none, fun _ => none, fun _ => none⟩
          (checkService demoSpec (.response 200) 5 0)).2 = true
        ↔ previousStatusOf ⟨fun _ => none, fun _ => none, fun _ => none⟩
            (checkService demoSpec (.response 200) 5 0).name
          ≠ (checkService demoSpec (.response 200) 5 0).status)
      ∧ ((⟨fun _ => none, fun _ => none, fun _ => none⟩ : MonState).serviceStatuses
            (checkService demoSpec (.response 200) 5 0).name = none →
          (checkAllServicesStep 0 ⟨fun _ => none, fun _ => none, fun _ => none⟩
            (checkService demoSpec (.response 200) 5 0)).2 = true)
      ∧ sendNotifications demoCfg demoEnv
          (checkService demoSpec (.response 200) 5 0).status
          (checkService demoSpec (.response 200) 5 0).status = .ok []) :=
  ⟨Or.inl rfl,
   checkAllServicesStep_alert_iff 0 ⟨fun _ => none, fun _ => none, fun _ => none⟩
     (checkService demoSpec (.response 200) 5 0) demoCfg demoEnv (Or.inl rfl)⟩

/-- C5 counterexample: the claim that a second concurrent fan-out is never
started is false.  `setInterval(checkAllServices, 30000)` installs
`checkAllServices` itself as the tick handler with no cycle-in-progress guard,
so two ticks with no completed cycle in between (a cycle outlasting the 30 s
period) leave two cycles running concurrently. -/
theorem runningCycles_two_ticks :
    runningCycles [SchedEvent.tick, SchedEvent.tick] = 2
    ∧ ¬ runningCycles [SchedEvent.tick, SchedEvent.tick] ≤ 1 := by
  decide

/-- C5 amended: every timer tick starts a new cycle unconditionally, so `n`
ticks with no completed cycle leave `n` concurrently running cycles - overlap
is possible and unbounded, not prevented. -/
theorem runningCycles_unbounded (n : Nat) :
    runningCycles (List.replicate n SchedEvent.tick) = n := by
  suffices h : ∀ m k, (List.replicate m SchedEvent.tick).foldl runningCyclesStep k = k + m by
    simpa [runningCycles] using h n 0
  intro m
  induction m with
  | zero => intro k; simp
  | succ p ih =>
    intro k
    rw [List.replicate_succ, List.foldl_cons, ih]
    simp [runningCyclesStep]
    omega

/-- C4 counterexample: after `DELETE /api/services/B` completes (in-memory
status, in-memory history and durable history file all removed), processing
the in-flight check result for B is not a no-op: the update loop of
`checkAllServices` (lines 798-811) recreates the in-memory history and
rewrites the durable history file, resurrecting the deleted storage. -/
theorem removed_service_storage_resurrected :
    stB1.historyFiles "B" = none
    ∧ stB1.serviceHistories "B" = none
    ∧ stB1.serviceStatuses "B" = none
    ∧ (checkAllServicesStep 100 stB1 resB).1.historyFiles "B"
      = some [toHistoryEntry resB] := by
  decide

/-- C4 amended: processing a check result for a service whose in-memory and
durable history have been removed recreates them: the durable history file of
the removed service is rewritten, containing exactly the in-flight result's
entry (trimmed to the 90-day window at the save instant). -/
theorem checkAllServicesStep_recreates_removed (now : Int) (st : MonState)
    (result : CheckResult)
    (hfile : st.historyFiles result.name = none)
    (hhist : st.serviceHistories result.name = none) :
    (checkAllServicesStep now st result).1.historyFiles result.name
      = some (trimHistory now [toHistoryEntry result]) := by
  have _ := hfile
  simp [checkAllServicesStep, saveServiceHistory, hhist]

/-- C4 amended witness: the removed service B of the counterexample scenario
gets its history file rewritten with the in-flight entry. -/
theorem checkAllServicesStep_recreates_removed_witness :
    stB1.historyFiles resB.name = none
    ∧ stB1.serviceHistories resB.name = none
    ∧ (checkAllServicesStep 100 stB1 resB).1.historyFiles resB.name
      = some (trimHistory 100 [toHistoryEntry resB]) :=
  ⟨by decide, by decide,
   checkAllServicesStep_recreates_removed 100 stB1 resB (by decide) (by decide)⟩

/-- C10: a stored service that has never been probed (no status record, empty
in-memory history) is not omitted by `GET /api/services` and does not fail it:
the listing has one record per stored service, and the never-probed service's
record is the synthetic one with status `unknown`, null `statusCode`,
`responseTime`, `lastChecked` and `error`, and uptime `"100.00"` (the
empty-history uptime). -/
theorem apiGetServices_unprobed (services : List ServiceSpec)
    (statuses : String → Option CheckResult)
    (histories : String → Option (List HistoryEntry))
    (svc : ServiceSpec) (i : Nat)
    (hi : services[i]? = some svc)
    (hstat : statuses svc.name = none)
    (hhist : (histories svc.name).getD [] = []) :
    (apiGetServices services statuses histories).length = services.length
    ∧ (apiGetServices services statuses histories)[i]?
      = some { name := svc.name, url := svc.url, status := "unknown", statusCode := none
               responseTime := none, lastChecked := none, error := none
               uptime := "100.00" } := by
  constructor
  · simp [apiGetServices]
  · rw [apiGetServices, List.getElem?_map, hi, Option.map_some']
    have h100 : toFixed2 (calculateUptime []) = "100.00" := by decide
    simp [hstat, hhist, h100]

/-- C10 witness: a one-service list with empty status and history maps. -/
theorem apiGetServices_unprobed_witness :
    ([demoSpec][0]? = some demoSpec)
    ∧ ((fun _ => (none : Option CheckResult)) demoSpec.name = none)
    ∧ (((fun _ => (none : Option (List HistoryEntry))) demoSpec.name).getD [] = [])
    ∧ ((apiGetServices [demoSpec] (fun _ => none) (fun _ => none)).length = [demoSpec].length
      ∧ (apiGetServices [demoSpec] (fun _ => none) (fun _ => none))[0]?
        = some { name := demoSpec.name, url := demoSpec.url, status := "unknown"
                 statusCode := none, responseTime := none, lastChecked := none
                 error := none, uptime := "100.00" }) :=
  ⟨rfl, rfl, rfl,
   apiGetServices_unprobed [demoSpec] (fun _ => none) (fun _ => none) demoSpec 0
     rfl rfl rfl⟩

/-- The email step of the dispatcher always returns, with the outcome read
off the transporter guard and the transport call. -/
theorem email_step_eq (cfg : NotificationsConfig) (env : DispatchEnv) :
    (if cfg.emailEnabled then sendEmailNotification env
     else .ok .notAttempted : Except String SendOutcome)
      = .ok (channelOutcome cfg env .email) := by
  cases hcfg : cfg.emailEnabled <;> cases htr : env.transporter <;>
    cases hok : env.emailSendOk <;>
      simp [sendEmailNotification, transporterSendMail, channelOutcome, hcfg, htr, hok,
            pure, Except.pure]

/-- The teams step of the dispatcher always returns. -/
theorem teams_step_eq (cfg : NotificationsConfig) (env : DispatchEnv) :
    (if cfg.teamsEnabled then sendTeamsNotification cfg env
     else .ok .notAttempted : Except String SendOutcome)
      = .ok (channelOutcome cfg env .teams) := by
  cases hcfg : cfg.teamsEnabled <;> by_cases hurl : cfg.teamsWebhookUrl = "" <;>
    cases hok : env.teamsSendOk <;>
      simp [sendTeamsNotification, axiosPostTeams, channelOutcome, hcfg, hurl, hok,
            pure, Except.pure]

/-- The sms step of the dispatcher always returns. -/
theorem sms_step_eq (cfg : NotificationsConfig) (env : DispatchEnv) :
    (if cfg.smsEnabled then sendSmsNotification env
     else .ok .notAttempted : Except String SendOutcome)
      = .ok (channelOutcome cfg env .sms) := by
  cases hcfg : cfg.smsEnabled <;> cases htw : env.twilioClient <;>
    cases hok : env.smsSendOk <;>
      simp [sendSmsNotification, twilioMessagesCreate, channelOutcome, hcfg, htw, hok,
            pure, Except.pure]

/-- The iphone step of the dispatcher always returns. -/
theorem iphone_step_eq (cfg : NotificationsConfig) (env : DispatchEnv) :
    (if cfg.iphoneEnabled then sendIphoneNotification cfg env
     else .ok .notAttempted : Except String SendOutcome)
      = .ok (channelOutcome cfg env .iphone) := by
  cases hcfg : cfg.iphoneEnabled <;> by_cases hurl : cfg.iphoneWebhookUrl = "" <;>
    cases hok : env.iphoneSendOk <;>
      simp [sendIphoneNotification, axiosPostIphone, channelOutcome, hcfg, hurl, hok,
            pure, Except.pure]

/-- On a status change, the dispatcher returns normally (no channel failure
propagates) with every channel's entry present in the fixed order and each
outcome a function of that channel's own configuration and transport result
alone. -/
theorem sendNotifications_run (cfg : NotificationsConfig) (env : DispatchEnv)
    (serviceStatus previousStatus : String) (hchange : previousStatus ≠ serviceStatus) :
    sendNotifications cfg env serviceStatus previousStatus
      = .ok [(.email, channelOutcome cfg env .email),
             (.teams, channelOutcome cfg env .teams),
             (.sms, channelOutcome cfg env .sms),
             (.iphone, channelOutcome cfg env .iphone)] := by
  rw [sendNotifications]
  rw [if_neg hchange, email_step_eq, teams_step_eq, sms_step_eq, iphone_step_eq]
  rfl

/-- C9: channel isolation.  On a dispatch where the mail transport fails, the
dispatcher still returns normally (the failure is caught, nothing propagates),
the chat-webhook, SMS and device-webhook entries are all still present in the
fixed order, and their outcomes are exactly what they are when the mail
transport succeeds - each channel's outcome is unaffected by the mail
failure. -/
theorem sendNotifications_channel_isolation (cfg : NotificationsConfig)
    (env : DispatchEnv) (serviceStatus previousStatus : String)
    (hchange : previousStatus ≠ serviceStatus) :
    sendNotifications cfg env serviceStatus previousStatus
      = .ok [(.email, channelOutcome cfg env .email),
             (.teams, channelOutcome cfg env .teams),
             (.sms, channelOutcome cfg env .sms),
             (.iphone, channelOutcome cfg env .iphone)]
    ∧ sendNotifications cfg { env with emailSendOk := false } serviceStatus previousStatus
      = .ok [(.email, channelOutcome cfg { env with emailSendOk := false } .email),
             (.teams, channelOutcome cfg env .teams),
             (.sms, channelOutcome cfg env .sms),
             (.iphone, channelOutcome cfg env .iphone)]
    ∧ (cfg.emailEnabled = true → env.transporter = true →
        channelOutcome cfg { env with emailSendOk := false } .email = .failedCaught) := by
  refine ⟨sendNotifications_run cfg env serviceStatus previousStatus hchange, ?_, ?_⟩
  · rw [sendNotifications_run cfg { env with emailSendOk := false } serviceStatus
        previousStatus hchange]
    simp [channelOutcome]
  · intro he ht
    simp [channelOutcome, he, ht]

/-- C9 witness: with every channel configured and a failing mail transport,
the dispatch on an `up` to `down` transition attempts all four channels. -/
theorem sendNotifications_channel_isolation_witness :
    ("up" : String) ≠ "down"
    ∧ (sendNotifications demoCfg demoEnv "down" "up"
        = .ok [(.email, channelOutcome demoCfg demoEnv .email),
               (.teams, channelOutcome demoCfg demoEnv .teams),
               (.sms, channelOutcome demoCfg demoEnv .sms),
               (.iphone, channelOutcome demoCfg demoEnv .iphone)]
      ∧ sendNotifications demoCfg { demoEnv with emailSendOk := false } "down" "up"
        = .ok [(.email, channelOutcome demoCfg { demoEnv with emailSendOk := false } .email),
               (.teams, channelOutcome demoCfg demoEnv .teams),
               (.sms, channelOutcome demoCfg demoEnv .sms),
               (.iphone, channelOutcome demoCfg demoEnv .iphone)]
      ∧ (demoCfg.emailEnabled = true → demoEnv.transporter = true →
          channelOutcome demoCfg { demoEnv with emailSendOk := false } .email
            = .failedCaught)) :=
  ⟨by decide,
   sendNotifications_channel_isolation demoCfg demoEnv "down" "up" (by decide)⟩

/-- C3 counterexample: `decrypt` does raise on a delimiter-containing input
that is not well-formed vault ciphertext.  For `"zz:zz"`, the IV segment
`"zz"` hex-decodes to 0 bytes, and `crypto.createDecipheriv('aes-256-cbc',
key, iv)` throws `Invalid initialization vector` before any block-cipher work
- so the exception is independent of the key and cipher (witnessed here with
the identity block function).  The code does not return text to the caller. -/
theorem decrypt_malformed_raises :
    COLON ∈ malformedSecret
    ∧ decrypt (fun b => b) malformedSecret = .error "Invalid initialization vector"
    ∧ ∀ t : Bytes, decrypt (fun b => b) malformedSecret ≠ .ok t := by
  refine ⟨by decide, rfl, ?_⟩
  intro t h
  rw [show decrypt (fun b => b) malformedSecret = .error "Invalid initialization vector"
      from rfl] at h
  cases h

/-- C3 amended: `decrypt` raises (rather than returning text) on a
delimiter-containing secret whose IV segment does not hex-decode to 16 bytes;
the exception lands in the catch-all of `loadNotifications`, which returns the
default configuration with every channel disabled, so downstream channel
initialization skips the channels rather than crashing. -/
theorem decrypt_malformed_caught (decBlock : Bytes → Bytes)
    (n : NotificationsConfig)
    (hc : COLON ∈ n.emailPass)
    (hmal : ∀ ivHex rest, n.emailPass.splitOn COLON = ivHex :: rest →
      (hexDecode ivHex).length ≠ 16) :
    decrypt decBlock n.emailPass = .error "Invalid initialization vector"
    ∧ loadNotifications decBlock (some n) = defaultNotifications := by
  have hne : n.emailPass ≠ [] := by
    intro h
    rw [h] at hc
    cases hc
  have hdec : decrypt decBlock n.emailPass = .error "Invalid initialization vector" := by
    rw [decrypt]
    rw [if_neg (by simp [hne, hc])]
    cases hsplit : n.emailPass.splitOn COLON with
    | nil => exact absurd hsplit (List.splitOnP_ne_nil _ _)
    | cons ivHex rest =>
      simp only
      rw [if_pos (hmal ivHex rest hsplit)]
  refine ⟨hdec, ?_⟩
  simp [loadNotifications, hne, hdec, Except.bind]

/-- C3 amended witness: the configuration whose stored email password is
`"zz:zz"` loads as the default (all channels disabled) configuration. -/
theorem decrypt_malformed_caught_witness :
    COLON ∈ cfgMalformed.emailPass
    ∧ (∀ ivHex rest, cfgMalformed.emailPass.splitOn COLON = ivHex :: rest →
        (hexDecode ivHex).length ≠ 16)
    ∧ (decrypt (fun b => b) cfgMalformed.emailPass
        = .error "Invalid initialization vector"
      ∧ loadNotifications (fun b => b) (some cfgMalformed) = defaultNotifications) := by
  have hmal : ∀ ivHex rest, cfgMalformed.emailPass.splitOn COLON = ivHex :: rest →
      (hexDecode ivHex).length ≠ 16 := by
    intro ivHex rest h
    rw [show cfgMalformed.emailPass.splitOn COLON = [[122, 122], [122, 122]] from by decide] at h
    injection h with h1 h2
    rw [← h1]
    decide
  exact ⟨by decide, hmal,
    decrypt_malformed_caught (fun b => b) cfgMalformed (by decide) hmal⟩

/-! ### Vault round-trip lemmas (for C6) -/

/-- `hexVal` inverts `hexDigit` on nibbles. -/
theorem hexVal_hexDigit (n : Nat) (h : n < 16) : hexVal (hexDigit n) = some n := by
  unfold hexDigit hexVal
  by_cases h10 : n < 10
  · rw [if_pos h10, if_pos (by omega)]
    congr 1
    omega
  · rw [if_neg h10, if_neg (by omega), if_pos (by omega)]
    congr 1
    omega

/-- No hex digit is the delimiter `':'`. -/
theorem hexDigit_ne_colon (n : Nat) (h : n < 16) : hexDigit n ≠ COLON := by
  unfold hexDigit COLON
  by_cases h10 : n < 10 <;> simp [h10] <;> omega

/-- Hex encodings of byte strings never contain the delimiter. -/
theorem colon_not_mem_hexEncode (bs : Bytes) (h : ∀ b ∈ bs, b < 256) :
    COLON ∉ hexEncode bs := by
  induction bs with
  | nil => simp [hexEncode]
  | cons b bs ih =>
    have hb : b < 256 := h b (List.mem_cons_self b bs)
    have hrest := ih (fun y hy => h y (List.mem_cons_of_mem b hy))
    simp only [hexEncode, List.mem_cons, not_or]
    exact ⟨Ne.symm (hexDigit_ne_colon _ (by omega)),
           Ne.symm (hexDigit_ne_colon _ (by omega)), hrest⟩

/-- `hexDecode` inverts `hexEncode` on byte strings. -/
theorem hexDecode_hexEncode (bs : Bytes) (h : ∀ b ∈ bs, b < 256) :
    hexDecode (hexEncode bs) = bs := by
  induction bs with
  | nil => rfl
  | cons b bs ih =>
    have hb : b < 256 := h b (List.mem_cons_self b bs)
    have h1 : hexVal (hexDigit (b / 16)) = some (b / 16) := hexVal_hexDigit _ (by omega)
    have h2 : hexVal (hexDigit (b % 16)) = some (b % 16) := hexVal_hexDigit _ (by omega)
    simp only [hexEncode, hexDecode, h1, h2,
               ih (fun y hy => h y (List.mem_cons_of_mem b hy))]
    congr 1
    omega

/-- `hexEncode` doubles the length. -/
theorem hexEncode_length (bs : Bytes) : (hexEncode bs).length = 2 * bs.length := by
  induction bs with
  | nil => rfl
  | cons b bs ih => simp [hexEncode, ih]; omega

/-- Splitting a block decomposition: flattening recovers the string, and each
block is 16 bytes drawn from the string. -/
theorem toBlocks_props : ∀ (l : Bytes), l.length % 16 = 0 →
    (toBlocks l).flatten = l ∧ ∀ b ∈ toBlocks l, b.length = 16 ∧ ∀ y ∈ b, y ∈ l
  | l, h => by
    by_cases hl : l = []
    · subst hl
      rw [toBlocks]
      simp
    · have hpos : 0 < l.length := List.length_pos.mpr hl
      have hlen : 16 ≤ l.length := by omega
      have hdrop : (l.drop 16).length % 16 = 0 := by
        simp only [List.length_drop]
        omega
      have ih := toBlocks_props (l.drop 16) hdrop
      rw [toBlocks, dif_neg hl]
      refine ⟨?_, ?_⟩
      · simp only [List.flatten_cons, ih.1, List.take_append_drop]
      · intro b hb
        rcases List.mem_cons.mp hb with hb1 | hb2
        · subst hb1
          refine ⟨?_, fun y hy => List.mem_of_mem_take hy⟩
          simp only [List.length_take]
          omega
        · obtain ⟨hlen16, hmem⟩ := ih.2 b hb2
          exact ⟨hlen16, fun y hy => List.mem_of_mem_drop (hmem y hy)⟩
termination_by l => l.length
decreasing_by
  simp only [List.length_drop]
  omega

/-- `toBlocks` inverts flattening of 16-byte block lists. -/
theorem toBlocks_flatten : ∀ (bs : List Bytes), (∀ b ∈ bs, b.length = 16) →
    toBlocks bs.flatten = bs
  | [], _ => by rw [List.flatten_nil, toBlocks]; simp
  | b :: bs, h => by
    have hb : b.length = 16 := h b (List.mem_cons_self b bs)
    have hrest := toBlocks_flatten bs (fun y hy => h y (List.mem_cons_of_mem b hy))
    have hne : b ++ bs.flatten ≠ [] := by
      intro hcon
      rw [List.append_eq_nil] at hcon
      rw [hcon.1] at hb
      simp at hb
    rw [List.flatten_cons, toBlocks, dif_neg hne, List.take_left' hb, List.drop_left' hb, hrest]

/-- Flattening a list of 16-byte blocks has length `16 *` the block count. -/
theorem flatten_blocks_length : ∀ (bs : List Bytes), (∀ b ∈ bs, b.length = 16) →
    bs.flatten.length = 16 * bs.length
  | [], _ => rfl
  | b :: bs, h => by
    have hb : b.length = 16 := h b (List.mem_cons_self b bs)
    have hrest := flatten_blocks_length bs (fun y hy => h y (List.mem_cons_of_mem b hy))
    simp only [List.flatten_cons, List.length_append, hb, hrest, List.length_cons]
    ring

/-- Byte-wise xor of equal-length byte strings is cancellative. -/
theorem xorBytes_cancel (a : Bytes) : ∀ (b : Bytes), a.length = b.length →
    xorBytes (xorBytes a b) b = a := by
  induction a with
  | nil => intro b _; rfl
  | cons x xs ih =>
    intro b hlen
    cases b with
    | nil => simp at hlen
    | cons y ys =>
      simp only [xorBytes, List.zipWith_cons_cons]
      rw [Nat.xor_cancel_right]
      congr 1
      refine ih ys ?_
      simp only [List.length_cons] at hlen
      omega

/-- Byte-wise xor of byte strings is a byte string. -/
theorem xorBytes_lt (a : Bytes) : ∀ (b : Bytes), (∀ y ∈ a, y < 256) → (∀ y ∈ b, y < 256) →
    ∀ y ∈ xorBytes a b, y < 256 := by
  induction a with
  | nil => intro b _ _ y hy; simp [xorBytes] at hy
  | cons x xs ih =>
    intro b ha hb y hy
    cases b with
    | nil => simp [xorBytes] at hy
    | cons z zs =>
      simp only [xorBytes, List.zipWith_cons_cons, List.mem_cons] at hy
      rcases hy with h1 | h2
      · subst h1
        have h256 : (256 : Nat) = 2 ^ 8 := by norm_num
        rw [h256]
        exact Nat.xor_lt_two_pow (by rw [← h256]; exact ha x (List.mem_cons_self x xs))
          (by rw [← h256]; exact hb z (List.mem_cons_self z zs))
      · exact ih zs (fun y hy => ha y (List.mem_cons_of_mem x hy))
          (fun y hy => hb y (List.mem_cons_of_mem z hy)) y h2

/-- The length of a byte-wise xor. -/
theorem xorBytes_length (a b : Bytes) :
    (xorBytes a b).length = min a.length b.length := by
  simp [xorBytes]

/-- CBC encryption produces one 16-byte ciphertext block (with byte values)
per plaintext block, given a well-formed chaining block. -/
theorem cbcEncryptBlocks_blocks (encBlock : Bytes → Bytes)
    (hEnc : ∀ b : Bytes, b.length = 16 → (∀ y ∈ b, y < 256) →
      (encBlock b).length = 16 ∧ ∀ y ∈ encBlock b, y < 256) :
    ∀ (bs : List Bytes) (prev : Bytes), prev.length = 16 → (∀ y ∈ prev, y < 256) →
      (∀ b ∈ bs, b.length = 16 ∧ ∀ y ∈ b, y < 256) →
      ∀ c ∈ cbcEncryptBlocks encBlock prev bs, c.length = 16 ∧ ∀ y ∈ c, y < 256 := by
  intro bs
  induction bs with
  | nil => intro prev _ _ _ c hc; simp [cbcEncryptBlocks] at hc
  | cons b bs ih =>
    intro prev hprevLen hprevBytes hbs c hc
    obtain ⟨hbLen, hbBytes⟩ := hbs b (List.mem_cons_self b bs)
    have hxLen : (xorBytes b prev).length = 16 := by
      rw [xorBytes_length, hbLen, hprevLen]
      exact Nat.min_self 16
    have hxBytes : ∀ y ∈ xorBytes b prev, y < 256 :=
      xorBytes_lt b prev hbBytes hprevBytes
    have hcgood := hEnc _ hxLen hxBytes
    simp only [cbcEncryptBlocks, List.mem_cons] at hc
    rcases hc with h1 | h2
    · subst h1; exact hcgood
    · exact ih (encBlock (xorBytes b prev)) hcgood.1 hcgood.2
        (fun y hy => hbs y (List.mem_cons_of_mem b hy)) c h2

/-- CBC encryption preserves the block count. -/
theorem cbcEncryptBlocks_length (encBlock : Bytes → Bytes) :
    ∀ (bs : List Bytes) (prev : Bytes),
      (cbcEncryptBlocks encBlock prev bs).length = bs.length := by
  intro bs
  induction bs with
  | nil => intro prev; rfl
  | cons b bs ih => intro prev; simp [cbcEncryptBlocks, ih]

/-- CBC decryption inverts CBC encryption of well-formed block lists. -/
theorem cbcDecryptBlocks_cancel (encBlock decBlock : Bytes → Bytes)
    (hEnc : ∀ b : Bytes, b.length = 16 → (∀ y ∈ b, y < 256) →
      (encBlock b).length = 16 ∧ ∀ y ∈ encBlock b, y < 256)
    (hDec : ∀ b : Bytes, b.length = 16 → (∀ y ∈ b, y < 256) →
      decBlock (encBlock b) = b) :
    ∀ (bs : List Bytes) (prev : Bytes), prev.length = 16 → (∀ y ∈ prev, y < 256) →
      (∀ b ∈ bs, b.length = 16 ∧ ∀ y ∈ b, y < 256) →
      cbcDecryptBlocks decBlock prev (cbcEncryptBlocks encBlock prev bs) = bs := by
  intro bs
  induction bs with
  | nil => intro prev _ _ _; rfl
  | cons b bs ih =>
    intro prev hprevLen hprevBytes hbs
    obtain ⟨hbLen, hbBytes⟩ := hbs b (List.mem_cons_self b bs)
    have hxLen : (xorBytes b prev).length = 16 := by
      rw [xorBytes_length, hbLen, hprevLen]
      exact Nat.min_self 16
    have hxBytes : ∀ y ∈ xorBytes b prev, y < 256 :=
      xorBytes_lt b prev hbBytes hprevBytes
    have hcgood := hEnc _ hxLen hxBytes
    simp only [cbcEncryptBlocks, cbcDecryptBlocks]
    rw [hDec _ hxLen hxBytes, xorBytes_cancel b prev (hbLen.trans hprevLen.symm)]
    rw [ih (encBlock (xorBytes b prev)) hcgood.1 hcgood.2
        (fun y hy => hbs y (List.mem_cons_of_mem b hy))]

/-- Padding reaches a block boundary. -/
theorem pad16_length_mod (l : Bytes) : (pad16 l).length % 16 = 0 := by
  simp only [pad16, List.length_append, List.length_replicate]
  omega

/-- Padding is never empty. -/
theorem pad16_ne_nil (l : Bytes) : pad16 l ≠ [] := by
  intro h
  have hlen := congrArg List.length h
  simp only [pad16, List.length_append, List.length_replicate, List.length_nil] at hlen
  omega

/-- Padding a byte string yields a byte string. -/
theorem pad16_bytes (l : Bytes) (h : ∀ y ∈ l, y < 256) : ∀ y ∈ pad16 l, y < 256 := by
  intro y hy
  rcases List.mem_append.mp hy with h1 | h2
  · exact h y h1
  · have := List.eq_of_mem_replicate h2
    subst this
    omega

/-- Unpadding inverts padding. -/
theorem unpad16_pad16 (l : Bytes) : unpad16 (pad16 l) = .ok l := by
  have hkpos : 0 < 16 - l.length % 16 := by omega
  have hkle : 16 - l.length % 16 ≤ 16 := by omega
  have hrepne : List.replicate (16 - l.length % 16) (16 - l.length % 16) ≠ ([] : Bytes) := by
    intro hcon
    rw [List.replicate_eq_nil_iff] at hcon
    omega
  have hlast : (pad16 l).getLast? = some (16 - l.length % 16) := by
    rw [pad16, List.getLast?_append_of_ne_nil _ hrepne]
    rcases Nat.exists_eq_add_of_lt hkpos with ⟨m, hm⟩
    rw [show 16 - l.length % 16 = m + 1 by omega]
    rw [List.replicate_succ' , List.getLast?_concat]
  have hlen : (pad16 l).length = l.length + (16 - l.length % 16) := by
    simp [pad16]
  simp only [unpad16, hlast]
  rw [if_neg (by omega)]
  have harith : (pad16 l).length - (16 - l.length % 16) = l.length := by omega
  have hdrop : (pad16 l).drop ((pad16 l).length - (16 - l.length % 16))
      = List.replicate (16 - l.length % 16) (16 - l.length % 16) := by
    rw [harith, pad16, List.drop_left]
  rw [if_pos hdrop, harith, pad16, List.take_left]

/-- Splitting at the first delimiter: the segment before it contains no
delimiter, so `parts.shift()` is that segment and the rest re-joins to the
suffix. -/
theorem splitOn_first_colon (a c : Bytes) (ha : COLON ∉ a) :
    (a ++ COLON :: c).splitOn COLON = a :: c.splitOn COLON := by
  simp only [List.splitOn]
  refine List.splitOnP_first (fun x => x == COLON) a ?_ COLON (by simp) c
  intro x hx
  simp only [beq_iff_eq]
  intro hcon
  subst hcon
  exact ha hx

/-- C6: vault round-trip and idempotence.  For any block permutation
(`decBlock` inverting `encBlock` on 16-byte blocks, as AES-256 under the
process key does), any fresh 16-byte IV, any non-empty byte string `x`
without the delimiter: `decrypt (encrypt x) = x`; `encrypt` of the empty
(falsy) string returns it unchanged; and `decrypt` of any delimiter-free
string returns it unchanged. -/
theorem vault_roundtrip (encBlock decBlock : Bytes → Bytes)
    (hEnc : ∀ b : Bytes, b.length = 16 → (∀ y ∈ b, y < 256) →
      (encBlock b).length = 16 ∧ ∀ y ∈ encBlock b, y < 256)
    (hDec : ∀ b : Bytes, b.length = 16 → (∀ y ∈ b, y < 256) →
      decBlock (encBlock b) = b)
    (iv : Bytes) (hivLen : iv.length = 16) (hivBytes : ∀ y ∈ iv, y < 256)
    (x : Bytes) (hx : x ≠ []) (hxColon : COLON ∉ x) (hxBytes : ∀ y ∈ x, y < 256)
    (t : Bytes) (htColon : COLON ∉ t) :
    decrypt decBlock (encrypt encBlock iv x) = .ok x
    ∧ encrypt encBlock iv [] = []
    ∧ decrypt decBlock t = .ok t := by
  have _ := hxColon
  refine ⟨?_, by rw [encrypt, if_pos rfl], by rw [decrypt, if_pos (Or.inr htColon)]⟩
  have hpadmod : (pad16 x).length % 16 = 0 := pad16_length_mod x
  have hpadbytes : ∀ y ∈ pad16 x, y < 256 := pad16_bytes x hxBytes
  obtain ⟨hflat, hblocks⟩ := toBlocks_props (pad16 x) hpadmod
  have hPprops : ∀ b ∈ toBlocks (pad16 x), b.length = 16 ∧ ∀ y ∈ b, y < 256 := by
    intro b hb
    obtain ⟨hl, hm⟩ := hblocks b hb
    exact ⟨hl, fun y hy => hpadbytes y (hm y hy)⟩
  have hctblocks : ∀ c ∈ cbcEncryptBlocks encBlock iv (toBlocks (pad16 x)),
      c.length = 16 ∧ ∀ y ∈ c, y < 256 :=
    cbcEncryptBlocks_blocks encBlock hEnc _ iv hivLen hivBytes hPprops
  have hctbytes : ∀ y ∈ (cbcEncryptBlocks encBlock iv (toBlocks (pad16 x))).flatten,
      y < 256 := by
    intro y hy
    obtain ⟨l, hl, hyl⟩ := List.mem_flatten.mp hy
    exact (hctblocks l hl).2 y hyl
  have hivnocolon : COLON ∉ hexEncode iv := colon_not_mem_hexEncode iv hivBytes
  have hienc : encrypt encBlock iv x
      = hexEncode iv
        ++ COLON :: hexEncode (cbcEncryptBlocks encBlock iv (toBlocks (pad16 x))).flatten := by
    rw [encrypt, if_neg hx]
  have hPne : toBlocks (pad16 x) ≠ [] := by
    intro hcon
    exact pad16_ne_nil x (by rw [← hflat, hcon]; rfl)
  have hPpos : 0 < (toBlocks (pad16 x)).length := List.length_pos.mpr hPne
  have hctlen : (cbcEncryptBlocks encBlock iv (toBlocks (pad16 x))).flatten.length
      = 16 * (toBlocks (pad16 x)).length := by
    rw [flatten_blocks_length _ (fun c hc => (hctblocks c hc).1), cbcEncryptBlocks_length]
  have hcond : ¬(hexEncode iv
        ++ COLON :: hexEncode (cbcEncryptBlocks encBlock iv (toBlocks (pad16 x))).flatten = []
      ∨ ¬ COLON ∈ hexEncode iv
        ++ COLON :: hexEncode (cbcEncryptBlocks encBlock iv (toBlocks (pad16 x))).flatten) := by
    push_neg
    exact ⟨by simp, by simp⟩
  rw [hienc, decrypt, if_neg hcond, splitOn_first_colon _ _ hivnocolon]
  simp only
  rw [hexDecode_hexEncode iv hivBytes]
  rw [if_neg (by simp [hivLen])]
  rw [List.intercalate_splitOn]
  rw [hexDecode_hexEncode _ hctbytes]
  rw [cbcDecrypt, if_neg (by push_neg; rw [hctlen]; constructor <;> omega)]
  rw [toBlocks_flatten _ (fun c hc => (hctblocks c hc).1)]
  rw [cbcDecryptBlocks_cancel encBlock decBlock hEnc hDec _ iv hivLen hivBytes hPprops]
  rw [hflat]
  exact unpad16_pad16 x

/-- C6 witness: the round trip evaluated with the identity block permutation,
an all-zero IV, the one-byte plaintext `"a"` and the delimiter-free text
`"hi"`. -/
theorem vault_roundtrip_witness :
    zeroIV.length = 16
    ∧ ([97] : Bytes) ≠ []
    ∧ COLON ∉ ([97] : Bytes)
    ∧ (decrypt (fun b => b) (encrypt (fun b => b) zeroIV [97]) = .ok [97]
      ∧ encrypt (fun b => b) zeroIV [] = []
      ∧ decrypt (fun b => b) ([104, 105] : Bytes) = .ok [104, 105]) :=
  ⟨by decide, by decide, by decide,
   vault_roundtrip (fun b => b) (fun b => b)
     (fun b hl hb => ⟨hl, hb⟩) (fun _ _ _ => rfl)
     zeroIV (by decide) (by decide)
     [97] (by decide) (by decide) (by decide)
     [104, 105] (by decide)⟩

end ServiceMonitor
